import Mathlib

/-!
Verification of the Microsoft Stream extractor
(`src/yt_dlp/extractor/microsoftstream.py`) against its specification.

The extractor is shallowly embedded: JSON values exchanged with the private
REST API are modelled by an inductive `Json` type, the Python dictionary
operations (`d[k]`, `d.get(k)`, `try_get`) by total/`Except`-valued lookup
functions, the standard library `base64.b64decode` by a faithful model of
CPython's lenient decoder, and the network/framework collaborators
(`_download_webpage`, manifest resolvers, `_sort_formats`, ISO-8601/duration
parsers) by an explicit environment record, as the specification designates
them external collaborators.  `_real_extract` becomes `realExtract`, which
returns both the list of API calls issued and either an error (an uncaught
Python exception or a terminal extractor error) or the normalized record.
-/

namespace MicrosoftStream

instance exceptDecEq {ε α : Type} [DecidableEq ε] [DecidableEq α] :
    DecidableEq (Except ε α) := fun a b =>
  match a, b with
  | .ok x, .ok y =>
    if h : x = y then isTrue (by rw [h])
    else isFalse (fun hh => h (by injection hh))
  | .error x, .error y =>
    if h : x = y then isTrue (by rw [h])
    else isFalse (fun hh => h (by injection hh))
  | .ok _, .error _ => isFalse (fun h => Except.noConfusion h)
  | .error _, .ok _ => isFalse (fun h => Except.noConfusion h)

/-- A JSON value, as produced by the site's REST API. -/
inductive Json where
  | null
  | bool (b : Bool)
  | num (n : Int)
  | str (s : String)
  | arr (elems : List Json)
  | obj (fields : List (String × Json))
  deriving Repr

mutual

/-- Structural equality test on JSON values. -/
def jeqJ : Json → Json → Bool
  | .null, .null => true
  | .bool x, .bool y => x == y
  | .num x, .num y => x == y
  | .str x, .str y => x == y
  | .arr x, .arr y => jeqL x y
  | .obj x, .obj y => jeqO x y
  | _, _ => false

/-- Structural equality test on JSON value lists. -/
def jeqL : List Json → List Json → Bool
  | [], [] => true
  | x :: xs, y :: ys => jeqJ x y && jeqL xs ys
  | _, _ => false

/-- Structural equality test on JSON object field lists. -/
def jeqO : List (String × Json) → List (String × Json) → Bool
  | [], [] => true
  | (k, v) :: xs, (k', v') :: ys => k == k' && jeqJ v v' && jeqO xs ys
  | _, _ => false

end

instance : DecidableEq Json := fun a b =>
  decidable_of_iff (jeqJ a b = true)
    (by
      have key : ∀ x y : Json, jeqJ x y = true ↔ x = y := by
        refine jeqJ.induct
          (fun a b => jeqJ a b = true ↔ a = b)
          (fun x y => jeqO x y = true ↔ x = y)
          (fun x y => jeqL x y = true ↔ x = y)
          ?_ ?_ ?_ ?_ ?_ ?_ ?_ ?_ ?_ ?_ ?_ ?_ ?_
        · simp [jeqJ]
        · intro x y; simp [jeqJ]
        · intro x y; simp [jeqJ]
        · intro x y; simp [jeqJ]
        · intro x y h; simp [jeqJ, h]
        · intro x y h; simp [jeqJ, h]
        · intro t x h1 h2 h3 h4 h5 h6
          cases t <;> cases x <;> simp [jeqJ] <;>
            first
            | exact (h5 _ _ rfl rfl).elim
            | exact (h6 _ _ rfl rfl).elim
        · simp [jeqL]
        · intro x xs y ys h1 h2; simp [jeqL, h1, h2]
        · intro t x h1 h2
          cases t <;> cases x <;> simp [jeqL] <;>
            (rename_i a as b bs; exact (h2 a as b bs rfl rfl).elim)
        · simp [jeqO]
        · intro k v xs k' v' ys h1 h2; simp [jeqO, h1, h2]
        · intro t x h1 h2
          cases t <;> cases x <;> simp [jeqO] <;>
            (rename_i kv xs kv' ys
             exact (h2 kv.1 kv.2 xs kv'.1 kv'.2 ys (by simp) (by simp)).elim)
      exact key a b)

/-- Python truthiness of a JSON value (`bool(v)`). -/
def truthy : Json → Bool
  | .null => false
  | .bool b => b
  | .num n => n != 0
  | .str s => s != ""
  | .arr l => !l.isEmpty
  | .obj l => !l.isEmpty

/-- Lookup of a key in a JSON object's field list (Python `dict` lookup;
parsed JSON objects have unique keys, so first match is the match). -/
def objGet : List (String × Json) → String → Option Json
  | [], _ => none
  | (k, v) :: rest, key => if k = key then some v else objGet rest key

/-- `d[k] = v`: replace the value of an existing key in place, or append
the new key at the end (Python dict insertion-order semantics). -/
def dictSet : List (String × Json) → String → Json → List (String × Json)
  | [], k, v => [(k, v)]
  | (k', v') :: rest, k, v =>
    if k' = k then (k, v) :: rest else (k', v') :: dictSet rest k v

/-- `Json.isObj`: whether a JSON value is an object (a Python `dict`). -/
def isObjJ : Json → Bool
  | .obj _ => true
  | _ => false

/-- The errors a (modelled) extraction can end in: the terminal extractor
errors of the spec's taxonomy plus the uncaught Python exceptions the code
can raise. -/
inductive PyErr where
  | loginRequired
  | extractorError (field : String)
  | fatalFetch
  | keyError (k : String)
  | typeError
  | attributeError
  | b64DecodeError
  | unsupportedUrl
  deriving Repr, DecidableEq

/-- `try_get(data, lambda x: x[p1][p2]...)`: nested lookup that yields `none`
instead of raising on any missing link or non-dict intermediate value. -/
def tryPath (j : Json) : List String → Option Json
  | [] => some j
  | k :: ks =>
    match j with
    | .obj f =>
      match objGet f k with
      | some v => tryPath v ks
      | none => none
    | _ => none

/-- `try_get(..., str)`: nested lookup filtered by `isinstance(v, str)`. -/
def tryPathStr (j : Json) (p : List String) : Option String :=
  match tryPath j p with
  | some (.str s) => some s
  | _ => none

/-- `try_get(..., int)`: nested lookup filtered by `isinstance(v, int)`
(Python `bool` is a subclass of `int`). -/
def tryPathInt (j : Json) (p : List String) : Option Int :=
  match tryPath j p with
  | some (.num n) => some n
  | some (.bool b) => some (if b then 1 else 0)
  | _ => none

/-- Value of a character in the standard base64 alphabet. -/
def b64val (c : Char) : Option Nat :=
  if 'A' ≤ c ∧ c ≤ 'Z' then some (c.toNat - 65)
  else if 'a' ≤ c ∧ c ≤ 'z' then some (c.toNat - 97 + 26)
  else if '0' ≤ c ∧ c ≤ '9' then some (c.toNat - 48 + 52)
  else if c = '+' then some 62
  else if c = '/' then some 63
  else none

/-- A character CPython's lenient base64 decoder counts as valid: the
standard alphabet or the padding character. -/
def isB64Valid (c : Char) : Bool := (b64val c).isSome || c = '='

/-- First valid character of a character list (used for CPython's lookahead
when a padding character is met mid-quantum). -/
def nextValid : List Char → Option Char
  | [] => none
  | c :: rest => if isB64Valid c then some c else nextValid rest

/-- CPython's lenient `binascii.a2b_base64` main loop: `quadPos` counts
characters of the current quantum, `leftchar`/`leftbits` hold the pending
bits, `acc` the produced bytes in reverse.  Invalid characters are skipped;
a padding character is ignored before two data characters, ends the input
when the quantum can be completed, and a final incomplete quantum is the
`Incorrect padding` error (`none`). -/
def a2bLoop : List Char → Nat → Nat → Nat → List Nat → Option (List Nat)
  | [], _, _, leftbits, acc =>
    if leftbits ≠ 0 then none else some acc.reverse
  | c :: rest, quadPos, leftchar, leftbits, acc =>
    if c = '=' then
      if quadPos < 2 ∨ (quadPos = 2 ∧ nextValid rest ≠ some '=') then
        a2bLoop rest quadPos leftchar leftbits acc
      else some acc.reverse
    else
      match b64val c with
      | none => a2bLoop rest quadPos leftchar leftbits acc
      | some v =>
        let quadPos' := (quadPos + 1) % 4
        let leftchar' := leftchar * 64 + v
        let leftbits' := leftbits + 6
        if 8 ≤ leftbits' then
          a2bLoop rest quadPos' (leftchar' % 2 ^ (leftbits' - 8)) (leftbits' - 8)
            ((leftchar' / 2 ^ (leftbits' - 8)) % 256 :: acc)
        else a2bLoop rest quadPos' leftchar' leftbits' acc

/-- `base64.b64decode` on a `str` argument: the argument must be ASCII
(otherwise `ValueError`), then CPython's lenient decoder runs.  `none`
models the raised exception. -/
def b64decode (s : String) : Option (List Nat) :=
  if s.data.any (fun c => 128 ≤ c.toNat) then none
  else a2bLoop s.data 0 0 0 []

/-- The `'=' * (-len(s) % 4)` padding the extractor appends before decoding. -/
def padB64 (s : String) : String :=
  s ++ String.mk (List.replicate ((4 - s.data.length % 4) % 4) '=')

/-- Lower-case hex digit for `repr` escapes. -/
def hexDig (n : Nat) : Char :=
  if n < 10 then Char.ofNat (48 + n) else Char.ofNat (87 + n)

/-- `repr` of one byte inside a Python `bytes` literal delimited by `quote`. -/
def pyByteRepr (quote : Char) (b : Nat) : List Char :=
  if b = 92 then ['\\', '\\']
  else if b = quote.toNat then ['\\', quote]
  else if b = 9 then ['\\', 't']
  else if b = 10 then ['\\', 'n']
  else if b = 13 then ['\\', 'r']
  else if 32 ≤ b ∧ b ≤ 126 then [Char.ofNat b]
  else ['\\', 'x', hexDig (b / 16), hexDig (b % 16)]

/-- Python `str(bytes_value)`: the `repr` of the bytes object, i.e.
`b'...'` (double-quote delimited when the bytes contain a single quote but
no double quote).  The extractor applies this to the decoded thumbnail
name before resolution parsing. -/
def strOfBytes (bs : List Nat) : String :=
  let q : Char :=
    if bs.contains 39 && !(bs.contains 34) then Char.ofNat 34 else Char.ofNat 39
  String.mk ('b' :: q :: bs.foldr (fun b acc => pyByteRepr q b ++ acc) [q])

/-- ASCII letter-or-digit (the boundary class of the resolution regex). -/
def isAlnumC (c : Char) : Bool := c.isAlpha || c.isDigit

/-- Numeric value of a digit run. -/
def natOfDigits (ds : List Char) : Nat :=
  ds.foldl (fun n c => n * 10 + (c.toNat - 48)) 0

/-- Try to read `<digits>x<digits>` at the head of the character list
(boundary on the left already checked by the caller; boundary on the right
checked here). -/
def resAt (cs : List Char) : Option (Nat × Nat) :=
  let p1 := cs.span (fun c => c.isDigit)
  if p1.1.isEmpty then none
  else
    match p1.2 with
    | x :: rest2 =>
      if x = 'x' ∨ x = 'X' then
        let p2 := rest2.span (fun c => c.isDigit)
        if p2.1.isEmpty then none
        else
          match p2.2 with
          | [] => some (natOfDigits p1.1, natOfDigits p2.1)
          | c :: _ =>
            if isAlnumC c then none else some (natOfDigits p1.1, natOfDigits p2.1)
      else none
    | [] => none

/-- Left-to-right scan for the first boundary-delimited resolution match. -/
def findRes : List Char → Bool → Option (Nat × Nat)
  | [], _ => none
  | c :: rest, bnd =>
    if bnd then
      match resAt (c :: rest) with
      | some r => some r
      | none => findRes rest (!isAlnumC c)
    else findRes rest (!isAlnumC c)

/-- Modelled from the spec: `parse_resolution` is repository code that is
not under `src/`; the spec says the decoded text is parsed "as a resolution
string (e.g. \"1920x1080\") to recover width/height", with absent or
malformed text recovering nothing.  A `WIDTHxHEIGHT` digit pair not
embedded in a larger alphanumeric run yields `(width, height)`. -/
def parse_resolution (s : String) : Option (Nat × Nat) :=
  findRes s.data true

/-- Modelled from the spec: `url_basename` is repository code that is not
under `src/`; the spec says to "take the final path segment" of the URL. -/
def url_basename (u : String) : String :=
  String.mk (basenameAux u.data [])
where
  /-- Characters after the last `/`, accumulated in reverse. -/
  basenameAux : List Char → List Char → List Char
    | [], acc => acc.reverse
    | c :: rest, acc => if c = '/' then basenameAux rest [] else basenameAux rest (c :: acc)

/-- Prefix test on character lists. -/
def startsL : List Char → List Char → Bool
  | [], _ => true
  | _ :: _, [] => false
  | p :: ps, c :: cs => p = c && startsL ps cs

/-- Substring test (Python `needle in haystack`). -/
def isSubstr (needle : List Char) : List Char → Bool
  | [] => needle.isEmpty
  | c :: rest => startsL needle (c :: rest) || isSubstr needle rest

/-- Consume a literal from the head of the input, returning the rest. -/
def eatLit : List Char → List Char → Option (List Char)
  | [], cs => some cs
  | _ :: _, [] => none
  | p :: ps, c :: cs => if p = c then eatLit ps cs else none

/-- Lower-case hex digit class `[\da-f]` of the `_VALID_URL` pattern. -/
def isHexL (c : Char) : Bool := c.isDigit || ('a' ≤ c && c ≤ 'f')

/-- Consume exactly `n` lower-case hex digits. -/
def takeHex : Nat → List Char → Option (List Char × List Char)
  | 0, cs => some ([], cs)
  | _ + 1, [] => none
  | n + 1, c :: cs =>
    if isHexL c then (takeHex n cs).map (fun p => (c :: p.1, p.2)) else none

/-- Consume the 8-4-4-4-12 hyphenated identifier group of `_VALID_URL`. -/
def matchIdChars (cs : List Char) : Option (List Char × List Char) := do
  let (g1, cs) ← takeHex 8 cs
  let cs ← eatLit ['-'] cs
  let (g2, cs) ← takeHex 4 cs
  let cs ← eatLit ['-'] cs
  let (g3, cs) ← takeHex 4 cs
  let cs ← eatLit ['-'] cs
  let (g4, cs) ← takeHex 4 cs
  let cs ← eatLit ['-'] cs
  let (g5, cs) ← takeHex 12 cs
  some (g1 ++ '-' :: g2 ++ '-' :: g3 ++ '-' :: g4 ++ '-' :: g5, cs)

/-- `self._match_id(url)`: anchored match of
`https?://(web|www|msit)\.microsoftstream\.com/video/<id>`, returning the
captured identifier (trailing URL content is ignored). -/
def matchId (url : String) : Option String := do
  let cs := url.data
  let cs ← eatLit "http".data cs
  let cs := match cs with
    | 's' :: rest => rest
    | rest => rest
  let cs ← eatLit "://".data cs
  let cs ← (eatLit "web".data cs) <|> (eatLit "www".data cs) <|> (eatLit "msit".data cs)
  let cs ← eatLit ".microsoftstream.com/video/".data cs
  let (idc, _) ← matchIdChars cs
  some (String.mk idc)

/-- The two subtitle dictionaries built by `_get_all_subtitles`: language
key (any JSON value can be a `dict` key) to ordered list of track entries. -/
structure SubMaps where
  subtitles : List (Json × List Json)
  automatic_captions : List (Json × List Json)
  deriving Repr, DecidableEq

/-- The per-track entry `{'ext': 'vtt', 'url': track.get('url')}`. -/
def subEntry (u : Json) : Json :=
  .obj [("ext", .str "vtt"), ("url", u)]

/-- `d.setdefault(k, []).append(v)`: append to the list of an existing key,
or add the new key at the end of the dict. -/
def sdAppend : List (Json × List Json) → Json → Json → List (Json × List Json)
  | [], k, v => [(k, [v])]
  | (k', vs) :: rest, k, v =>
    if k' = k then (k', vs ++ [v]) :: rest else (k', vs) :: sdAppend rest k v

/-- The track loop of `_get_all_subtitles` (lines 34-41): tracks without a
truthy `language` or `url` are skipped; the rest are appended to the
automatic-caption dict when `autoGenerated` is truthy, to the subtitle dict
otherwise.  A non-dict track raises (`.get` on it is an `AttributeError`). -/
def subsLoop : List Json → SubMaps → Except PyErr SubMaps
  | [], acc => .ok acc
  | t :: ts, acc =>
    match t with
    | .obj tf =>
      if truthy ((objGet tf "language").getD .null)
          && truthy ((objGet tf "url").getD .null) then
        if truthy ((objGet tf "autoGenerated").getD .null) then
          subsLoop ts
            { acc with
              automatic_captions :=
                sdAppend acc.automatic_captions ((objGet tf "language").getD .null)
                  (subEntry ((objGet tf "url").getD .null)) }
        else
          subsLoop ts
            { acc with
              subtitles :=
                sdAppend acc.subtitles ((objGet tf "language").getD .null)
                  (subEntry ((objGet tf "url").getD .null)) }
      else subsLoop ts acc
    | _ => .error .attributeError

/-- The `.get('value') or []` step of `_get_all_subtitles` applied to the
text-track download's result.  Modelled from the spec for the failed-download
case: `_download_json(..., fatal=False)` lives in repository code that is not
under `src/`, and the spec states that text-track fetch failure "is non-fatal
(yields empty subtitle maps, not an aborted extraction)", so a failed
download (`none`) contributes no tracks.  A successful download of a
non-object is `.get` on a non-dict (`AttributeError`); a truthy non-list
`value` makes the subsequent loop raise. -/
def textTracksOf : Option Json → Except PyErr (List Json)
  | none => .ok []
  | some j =>
    match j with
    | .obj f =>
      match objGet f "value" with
      | some (.arr l) => .ok l
      | some v => if truthy v then .error .typeError else .ok []
      | none => .ok []
    | _ => .error .attributeError

/-- `_get_all_subtitles` (lines 27-45) applied to the result of the
text-track download (`none` = the download failed). -/
def getAllSubtitles (tt : Option Json) : Except PyErr SubMaps :=
  match textTracksOf tt with
  | .error e => .error e
  | .ok ts => subsLoop ts ⟨[], []⟩

/-- The gate of `extract_all_subtitles` (lines 47-52): the download (and the
subtitle keys) happen only when one of `writesubtitles`,
`writeautomaticsub`, `listsubtitles` is set; otherwise the empty dict `{}`
is spread into the result (`none`: no keys contributed, no network call). -/
def extractAllSubtitles (req : Bool) (tt : Option Json) :
    Option (Except PyErr SubMaps) :=
  if req then some (getAllSubtitles tt) else none

/-- The three supported manifest mime types. -/
def mimeHls : Json := .str "application/vnd.apple.mpegurl"

/-- DASH manifest mime type. -/
def mimeDash : Json := .str "application/dash+xml"

/-- Smooth-streaming manifest mime type. -/
def mimeIsm : Json := .str "application/vnd.ms-sstr+xml"

/-- `playlist[key]` on a JSON value: `KeyError` when the key is absent,
`TypeError` when the value is not a dict. -/
def pySubscript (j : Json) (k : String) : Except PyErr Json :=
  match j with
  | .obj f =>
    match objGet f k with
    | some v => .ok v
    | none => .error (.keyError k)
  | _ => .error .typeError

/-- The format-collection loop over `video_data['playbackUrls']`
(lines 89-102).  The three manifest resolvers are external collaborators
(delegated, each with `fatal=False`, so resolver failure is an empty
contribution); an entry whose `mimeType` is none of the three is skipped. -/
def collectFormats (hl dh im : Json → List Json) : List Json → Except PyErr (List Json)
  | [] => .ok []
  | p :: rest =>
    match pySubscript p "mimeType" with
    | .error e => .error e
    | .ok mt =>
      if mt = mimeHls then
        match pySubscript p "playbackUrl" with
        | .error e => .error e
        | .ok u =>
          match collectFormats hl dh im rest with
          | .error e => .error e
          | .ok fs => .ok (hl u ++ fs)
      else if mt = mimeDash then
        match pySubscript p "playbackUrl" with
        | .error e => .error e
        | .ok u =>
          match collectFormats hl dh im rest with
          | .error e => .error e
          | .ok fs => .ok (dh u ++ fs)
      else if mt = mimeIsm then
        match pySubscript p "playbackUrl" with
        | .error e => .error e
        | .ok u =>
          match collectFormats hl dh im rest with
          | .error e => .error e
          | .ok fs => .ok (im u ++ fs)
      else collectFormats hl dh im rest

/-- Modelled from the spec: `merge_dicts(f, {'language': language})` uses
the generic metadata-dict merge utility, which the spec excludes as an
external collaborator and describes as "every resulting format entry is
tagged with the video's `language`" / "an injected `language` tag copied
from the video's top-level language field". -/
def tagLanguage (lang : Json) (f : Json) : Json :=
  match f with
  | .obj fields => .obj (dictSet fields "language" lang)
  | _ => f

/-- The `language` field of a format entry. -/
def formatLanguage (f : Json) : Option Json :=
  match f with
  | .obj fl => objGet fl "language"
  | _ => none

/-- A normalized thumbnail entry: `id`/`url` always, width/height only when
the decoded basename parsed as a resolution. -/
structure Thumb where
  id : String
  url : String
  width : Option Nat
  height : Option Nat
  deriving Repr, DecidableEq

/-- Lines 79-86 for one present thumbnail URL: decode the padded final path
segment (an uncaught `binascii.Error`/`ValueError` aborts the extraction),
stringify the bytes, and parse a resolution out of the text. -/
def mkThumb (lab u : String) : Except PyErr Thumb :=
  match b64decode (padB64 (url_basename u)) with
  | none => .error .b64DecodeError
  | some bs =>
    match parse_resolution (strOfBytes bs) with
    | some (w, h) => .ok ⟨lab, u, some w, some h⟩
    | none => .ok ⟨lab, u, none, none⟩

/-- The four fixed poster-image size labels. -/
def thumbLabels : List String := ["extraSmall", "small", "medium", "large"]

/-- The thumbnail loop (lines 74-86): for each size label, look up
`posterImage[label].url` with `try_get(..., str)`; skip falsy URLs; build
the entry for present ones. -/
def buildThumbs (vd : List (String × Json)) : List String → Except PyErr (List Thumb)
  | [] => .ok []
  | lab :: rest =>
    match tryPathStr (.obj vd) ["posterImage", lab, "url"] with
    | none => buildThumbs vd rest
    | some u =>
      if u = "" then buildThumbs vd rest
      else
        match mkThumb lab u with
        | .error e => .error e
        | .ok t =>
          match buildThumbs vd rest with
          | .error e => .error e
          | .ok ts => .ok (t :: ts)

/-- A single-quote character as a string (for Python `repr`). -/
def squote : String := String.singleton (Char.ofNat 39)

mutual

/-- Python `repr()` of a JSON value (string escapes approximated by plain
quoting; only ever applied to identifier-like values here). -/
def pyRepr : Json → String
  | .null => "None"
  | .bool true => "True"
  | .bool false => "False"
  | .num n => toString n
  | .str s => squote ++ s ++ squote
  | .arr l => "[" ++ pyReprList l ++ "]"
  | .obj l => "\x7b" ++ pyReprObj l ++ "\x7d"

/-- Comma-joined `repr`s of list elements. -/
def pyReprList : List Json → String
  | [] => ""
  | [x] => pyRepr x
  | x :: xs => pyRepr x ++ ", " ++ pyReprList xs

/-- Comma-joined `repr`s of dict items. -/
def pyReprObj : List (String × Json) → String
  | [] => ""
  | [(k, v)] => squote ++ k ++ squote ++ ": " ++ pyRepr v
  | (k, v) :: xs => squote ++ k ++ squote ++ ": " ++ pyRepr v ++ ", " ++ pyReprObj xs

end

/-- Python `str()` of a JSON value (used in the `webpage_url` f-string). -/
def pyStr : Json → String
  | .str s => s
  | j => pyRepr j

/-- The network requests `_real_extract` can issue itself (manifest
downloads happen inside the delegated resolvers). -/
inductive ApiCall where
  | webpage
  | videoMeta
  | texttracks
  deriving Repr, DecidableEq

/-- The environment of one extraction: the page the host HTTP client
returns, the results of the two regex scrapes and the two API downloads
(`none` = pattern absent / download failed), the external collaborators the
spec excludes (manifest resolvers, `_sort_formats`, ISO-8601 and duration
parsers), and the caller's three subtitle options. -/
structure Env where
  webpage : String
  accessToken : Option String
  apiGatewayUri : Option String
  videoData : Option Json
  textTracks : Option Json
  hls : Json → List Json
  dash : Json → List Json
  ism : Json → List Json
  sortFormats : List Json → List Json
  parseIso8601 : Json → Json
  parseDuration : Option Json → Json
  writesubtitles : Bool
  writeautomaticsub : Bool
  listsubtitles : Bool

/-- The condition of `extract_all_subtitles` (lines 48-50). -/
def subsRequested (env : Env) : Bool :=
  env.writesubtitles || env.writeautomaticsub || env.listsubtitles

/-- The normalized output record (the dict literal of lines 106-122).
`subs` is the spread of `extract_all_subtitles`'s result: `none` when it
returned `{}` (no subtitle keys in the record at all). -/
structure NormalizedRecord where
  id : Json
  title : Json
  description : Json
  uploader : Option String
  uploader_id : Option String
  thumbnails : List Thumb
  subs : Option SubMaps
  timestamp : Json
  duration : Json
  webpage_url : String
  view_count : Option Int
  like_count : Option Int
  comment_count : Option Int
  formats : List Json
  deriving Repr, DecidableEq

/-- The literal `<title>` marker checked on line 57. -/
def markerStr : String := "<title>Microsoft Stream</title>"

/-- The marker check of line 57. -/
def containsMarker (page : String) : Bool :=
  isSubstr markerStr.data page.data

/-- Assembly of the output record (lines 71-72 and 103-122) from the video
metadata object and the already-computed pieces. -/
def mkRecord (env : Env) (vid : String) (vd : List (String × Json))
    (thumbs : List Thumb) (title : Json) (raw : List Json)
    (sm : Option SubMaps) : NormalizedRecord :=
  let idJ := (objGet vd "id").getD .null
  let vid2 : Json := if truthy idJ then idJ else .str vid
  let language := (objGet vd "language").getD .null
  { id := vid2
  , title := title
  , description := (objGet vd "description").getD .null
  , uploader := tryPathStr (.obj vd) ["creator", "name"]
  , uploader_id :=
      (tryPathStr (.obj vd) ["creator", "mail"]) <|> (tryPathStr (.obj vd) ["creator", "id"])
  , thumbnails := thumbs
  , subs := sm
  , timestamp := env.parseIso8601 ((objGet vd "created").getD .null)
  , duration := env.parseDuration (tryPath (.obj vd) ["media", "duration"])
  , webpage_url := "https://web.microsoftstream.com/video/" ++ pyStr vid2
  , view_count := tryPathInt (.obj vd) ["metrics", "views"]
  , like_count := tryPathInt (.obj vd) ["metrics", "likes"]
  , comment_count := tryPathInt (.obj vd) ["metrics", "comments"]
  , formats := env.sortFormats (raw.map (tagLanguage language)) }

/-- Lines 74-122 once the video metadata object is in hand, with the
subtitle step's outcome passed in: thumbnails, then `playbackUrls`
iteration, then (inside the result dict, in evaluation order) the required
`name` lookup and the conditional text-track download. -/
def realExtractBody (env : Env) (s : Option (Except PyErr SubMaps))
    (vid : String) (vd : List (String × Json)) :
    List ApiCall × Except PyErr NormalizedRecord :=
  match buildThumbs vd thumbLabels with
  | .error e => ([.webpage, .videoMeta], .error e)
  | .ok thumbs =>
    match objGet vd "playbackUrls" with
    | none => ([.webpage, .videoMeta], .error (.keyError "playbackUrls"))
    | some (.arr playlists) =>
      match collectFormats env.hls env.dash env.ism playlists with
      | .error e => ([.webpage, .videoMeta], .error e)
      | .ok raw =>
        match objGet vd "name" with
        | none => ([.webpage, .videoMeta], .error (.keyError "name"))
        | some title =>
          match s with
          | none => ([.webpage, .videoMeta], .ok (mkRecord env vid vd thumbs title raw none))
          | some (.error e) => ([.webpage, .videoMeta, .texttracks], .error e)
          | some (.ok sm) =>
            ([.webpage, .videoMeta, .texttracks],
              .ok (mkRecord env vid vd thumbs title raw (some sm)))
    | some _ => ([.webpage, .videoMeta], .error .typeError)

/-- `_real_extract` with the subtitle outcome abstracted: URL match, page
fetch and marker check (line 57), credential scrape (lines 60-61), fatal
video-metadata download (lines 65-70), then the body.  The first component
is the list of API calls issued. -/
def realExtractCore (env : Env) (s : Option (Except PyErr SubMaps)) (url : String) :
    List ApiCall × Except PyErr NormalizedRecord :=
  match matchId url with
  | none => ([], .error .unsupportedUrl)
  | some vid =>
    if containsMarker env.webpage then
      match env.accessToken with
      | none => ([.webpage], .error (.extractorError "access token"))
      | some _ =>
        match env.apiGatewayUri with
        | none => ([.webpage], .error (.extractorError "api url"))
        | some _ =>
          match env.videoData with
          | none => ([.webpage, .videoMeta], .error .fatalFetch)
          | some (.obj vd) => realExtractBody env s vid vd
          | some _ => ([.webpage, .videoMeta], .error .attributeError)
    else ([.webpage], .error .loginRequired)

/-- `MicrosoftStreamIE._real_extract(url)` under environment `env`. -/
def realExtract (env : Env) (url : String) :
    List ApiCall × Except PyErr NormalizedRecord :=
  realExtractCore env (extractAllSubtitles (subsRequested env) env.textTracks) url

/-- A concrete valid video URL (from the module's own test list). -/
def theUrl : String :=
  "https://web.microsoftstream.com/video/6e51d928-4f46-4f1c-b141-369925e37b62"

/-- The identifier `theUrl` carries. -/
def theId : String := "6e51d928-4f46-4f1c-b141-369925e37b62"

/-- A happy-path environment: authenticated page, both credentials
scrapable, minimal video metadata (`name` and an empty `playbackUrls`),
no subtitle options, identity sort, empty resolvers. -/
def baseEnv : Env :=
  { webpage := "<html><head><title>Microsoft Stream</title></head></html>"
  , accessToken := some "token123"
  , apiGatewayUri := some "https://api.example.invalid"
  , videoData := some (.obj [("name", Json.str "T"), ("playbackUrls", Json.arr [])])
  , textTracks := none
  , hls := fun _ => []
  , dash := fun _ => []
  , ism := fun _ => []
  , sortFormats := fun l => l
  , parseIso8601 := fun _ => .null
  , parseDuration := fun _ => .null
  , writesubtitles := false
  , writeautomaticsub := false
  , listsubtitles := false }

/-- The record `baseEnv` extractions produce, parameterized by the subtitle
part. -/
def baseRec (sm : Option SubMaps) : NormalizedRecord :=
  { id := .str theId
  , title := .str "T"
  , description := .null
  , uploader := none
  , uploader_id := none
  , thumbnails := []
  , subs := sm
  , timestamp := .null
  , duration := .null
  , webpage_url := "https://web.microsoftstream.com/video/6e51d928-4f46-4f1c-b141-369925e37b62"
  , view_count := none
  , like_count := none
  , comment_count := none
  , formats := [] }

/-- Environment for the C1 witness: subtitles requested, text-track
download failed. -/
def envC1 : Env := { baseEnv with writesubtitles := true }

/-- Environment for the C7 witness: the fetched page lacks the marker. -/
def envC7 : Env := { baseEnv with webpage := "<html>please sign in</html>" }

/-- Environment for the C8 witness: subtitle listing requested, text-track
download succeeding with no tracks. -/
def envC8 : Env :=
  { baseEnv with
    listsubtitles := true,
    textTracks := some (.obj [("value", Json.arr [])]) }

/-- Video metadata whose only fields are the two required ones plus an
empty-string (falsy) `id` — the C4 counterexample input. -/
def envEmptyId : Env :=
  { baseEnv with
    videoData :=
      some (.obj [("id", Json.str ""), ("name", Json.str "T"), ("playbackUrls", Json.arr [])]) }

/-- Video metadata carrying a truthy API `id` — the C4 witness input. -/
def envC4w : Env :=
  { baseEnv with
    videoData :=
      some (.obj [("id", Json.str "abc-id-from-api"), ("name", Json.str "T"),
        ("playbackUrls", Json.arr [])]) }

/-- The record `envC4w` produces. -/
def recC4w : NormalizedRecord :=
  { baseRec none with
    id := .str "abc-id-from-api",
    webpage_url := "https://web.microsoftstream.com/video/abc-id-from-api" }

/-- Video metadata with no fields at all — the C3 counterexample input. -/
def envNoFields : Env := { baseEnv with videoData := some (.obj []) }

/-- Video metadata for thumbnail claims: required fields plus one poster
image of size label `small` with URL `u`. -/
def thumbVd (u : String) : List (String × Json) :=
  [("name", Json.str "T"), ("playbackUrls", Json.arr []),
   ("posterImage", Json.obj [("small", Json.obj [("url", Json.str u)])])]

/-- Environment for thumbnail claims. -/
def envThumb (u : String) : Env :=
  { baseEnv with videoData := some (.obj (thumbVd u)) }

/-- The record an `envThumb u` extraction produces, parameterized by the
thumbnail list. -/
def thumbRecAux (res : List Thumb) : NormalizedRecord :=
  { baseRec none with thumbnails := res }

/-- A thumbnail URL whose final path segment is valid base64 for
`1280x720.jpg`. -/
def uGood : String := "https://host.example/profile/MTI4MHg3MjAuanBn"

/-- A thumbnail URL whose final path segment `ab.c` is not decodable:
the discarded `.` leaves three data characters, which is an incomplete
quantum (`binascii.Error: Incorrect padding`). -/
def uBad : String := "https://host.example/profile/ab.c"

/-- The example text-track API response of the specification. -/
def exList : List Json :=
  [ .obj [("language", .str "en"), ("url", .str "u1"), ("autoGenerated", .bool false)]
  , .obj [("language", .str "en"), ("url", .str "u2"), ("autoGenerated", .bool true)]
  , .obj [("language", .str "fr"), ("url", .str "u3")] ]

/-- The example text-track download result. -/
def exTracks : Json := .obj [("value", Json.arr exList)]

/-- The subtitle maps the specification expects for `exTracks`. -/
def exSubMaps : SubMaps :=
  { subtitles :=
      [ (.str "en", [subEntry (.str "u1")])
      , (.str "fr", [subEntry (.str "u3")]) ]
  , automatic_captions := [ (.str "en", [subEntry (.str "u2")]) ] }

/-- A playback entry with an unsupported mime type. -/
def unsupEntry : Json :=
  .obj [("mimeType", .str "application/x-new-format"),
        ("playbackUrl", .str "https://u.example/unsupported")]

/-- The manifest URL of `dashEntry`. -/
def dashUrl : Json := .str "https://u.example/manifest.mpd"

/-- A DASH playback entry. -/
def dashEntry : Json :=
  .obj [("mimeType", .str "application/dash+xml"), ("playbackUrl", dashUrl)]

/-- Environment for the C9 witness: a video with `language` `en` and one
DASH playback entry whose resolver yields one untagged format. -/
def envC9 : Env :=
  { baseEnv with
    videoData :=
      some (.obj [("name", Json.str "T"), ("language", Json.str "en"),
        ("playbackUrls", Json.arr [dashEntry])]),
    dash := fun _ => [Json.obj [("url", Json.str "https://f.example/seg")]] }

/-- The tagged format entry the C9 witness extraction produces. -/
def fmtC9 : Json :=
  .obj [("url", Json.str "https://f.example/seg"), ("language", Json.str "en")]

/-- The video metadata object inside `envC9`. -/
def vdC9 : List (String × Json) :=
  [("name", Json.str "T"), ("language", Json.str "en"),
   ("playbackUrls", Json.arr [dashEntry])]

/-- The record the `envC9` extraction produces. -/
def recC9 : NormalizedRecord := { baseRec none with formats := [fmtC9] }

/-- Whether a track survives the language/url filter. -/
def trackKept (t : Json) : Bool :=
  match t with
  | .obj tf =>
    truthy ((objGet tf "language").getD .null) && truthy ((objGet tf "url").getD .null)
  | _ => false

/-- Truthiness of a track's `autoGenerated` flag. -/
def trackAuto (t : Json) : Bool :=
  match t with
  | .obj tf => truthy ((objGet tf "autoGenerated").getD .null)
  | _ => false

/-- A track's `language` value. -/
def trackLang (t : Json) : Json :=
  match t with
  | .obj tf => (objGet tf "language").getD .null
  | _ => .null

/-- A track's `url` value. -/
def trackUrl (t : Json) : Json :=
  match t with
  | .obj tf => (objGet tf "url").getD .null
  | _ => .null

/-- The filter/map characterization of the subtitle partition, for the C5
statement: the ordered entries a language ends up with in the chosen map. -/
def specTrackUrls (ts : List Json) (auto : Bool) (l : Json) : List Json :=
  (ts.filter fun t => trackKept t && decide (trackAuto t = auto) && decide (trackLang t = l)).map
    fun t => subEntry (trackUrl t)

/-- Ordered lookup in a subtitle map, `[]` when the language is absent. -/
def lookupD (m : List (Json × List Json)) (k : Json) : List Json :=
  match m with
  | [] => []
  | (k', vs) :: rest => if k' = k then vs else lookupD rest k

/-!  Helper lemmas.  -/

theorem getAllSubtitles_none : getAllSubtitles none = .ok ⟨[], []⟩ := rfl

theorem extractAllSubtitles_isSome (req : Bool) (tt : Option Json) :
    (extractAllSubtitles req tt).isSome = req := by
  cases req <;> rfl

/-- Shape of every successful extraction: all the intermediate steps
succeeded and the record is `mkRecord` of their results. -/
theorem core_ok_shape (env : Env) (s : Option (Except PyErr SubMaps)) (url : String)
    (r : NormalizedRecord) (h : (realExtractCore env s url).2 = .ok r) :
    ∃ vid vd thumbs playlists raw title,
      matchId url = some vid ∧
      containsMarker env.webpage = true ∧
      env.videoData = some (.obj vd) ∧
      buildThumbs vd thumbLabels = .ok thumbs ∧
      objGet vd "playbackUrls" = some (.arr playlists) ∧
      collectFormats env.hls env.dash env.ism playlists = .ok raw ∧
      objGet vd "name" = some title ∧
      ((s = none ∧ r = mkRecord env vid vd thumbs title raw none) ∨
        ∃ sm, s = some (.ok sm) ∧ r = mkRecord env vid vd thumbs title raw (some sm)) := by
  unfold realExtractCore realExtractBody at h
  repeat' split at h
  all_goals try simp at h
  all_goals subst h
  · exact ⟨_, _, _, _, _, _, by assumption, by assumption, by assumption, by assumption,
      by assumption, by assumption, by assumption, .inl ⟨by first | rfl | assumption, rfl⟩⟩
  · exact ⟨_, _, _, _, _, _, by assumption, by assumption, by assumption, by assumption,
      by assumption, by assumption, by assumption, .inr ⟨_, by first | rfl | assumption, rfl⟩⟩

/-- The call trace of any extraction is a prefix of the full sequence, and
contains the text-track call only when the subtitle step ran. -/
theorem core_calls (env : Env) (s : Option (Except PyErr SubMaps)) (url : String) :
    (realExtractCore env s url).1 = [] ∨
    (realExtractCore env s url).1 = [.webpage] ∨
    (realExtractCore env s url).1 = [.webpage, .videoMeta] ∨
    ((realExtractCore env s url).1 = [.webpage, .videoMeta, .texttracks] ∧ s.isSome) := by
  unfold realExtractCore realExtractBody
  repeat' split
  all_goals simp_all

/-- The call trace of a successful extraction. -/
theorem core_ok_calls (env : Env) (s : Option (Except PyErr SubMaps)) (url : String)
    (r : NormalizedRecord) (h : (realExtractCore env s url).2 = .ok r) :
    (realExtractCore env s url).1 =
      if s.isSome then [.webpage, .videoMeta, .texttracks] else [.webpage, .videoMeta] := by
  unfold realExtractCore realExtractBody at h ⊢
  repeat' split
  all_goals simp_all

theorem lookupD_sdAppend (m : List (Json × List Json)) (k v k' : Json) :
    lookupD (sdAppend m k v) k' =
      if k' = k then lookupD m k' ++ [v] else lookupD m k' := by
  induction m with
  | nil =>
    by_cases h : k' = k
    · subst h; simp [sdAppend, lookupD]
    · simp [sdAppend, lookupD, if_neg h, if_neg (Ne.symm h)]
  | cons e rest ih =>
    obtain ⟨ke, ve⟩ := e
    by_cases h1 : ke = k
    · subst h1
      by_cases h2 : ke = k'
      · subst h2; simp [sdAppend, lookupD]
      · simp [sdAppend, lookupD, if_neg h2, if_neg (Ne.symm h2)]
    · by_cases h2 : ke = k'
      · subst h2
        simp [sdAppend, lookupD, if_neg h1, if_neg (Ne.symm h1), ih]
      · simp [sdAppend, lookupD, if_neg h1, if_neg h2, ih]

theorem objGet_dictSet (fl : List (String × Json)) (k : String) (v : Json) :
    objGet (dictSet fl k v) k = some v := by
  induction fl with
  | nil => simp [dictSet, objGet]
  | cons e rest ih =>
    obtain ⟨ke, ve⟩ := e
    by_cases h : ke = k
    · subst h; simp [dictSet, objGet]
    · simp [dictSet, objGet, h, ih]

/-- Membership in the collected format list comes from one of the three
resolvers. -/
theorem collectFormats_mem (hl dh im : Json → List Json) :
    ∀ (ps raw : List Json), collectFormats hl dh im ps = .ok raw →
      ∀ g ∈ raw, ∃ u, g ∈ hl u ∨ g ∈ dh u ∨ g ∈ im u := by
  intro ps
  induction ps with
  | nil =>
    intro raw h g hg
    simp only [collectFormats] at h
    injection h with h
    subst h
    simp at hg
  | cons p rest ih =>
    intro raw h g hg
    unfold collectFormats at h
    repeat' split at h
    all_goals try simp at h
    all_goals try (exact ih raw h g hg)
    all_goals subst h
    all_goals rcases List.mem_append.mp hg with h1 | h2
    · exact ⟨_, .inl h1⟩
    · exact ih _ (by assumption) g h2
    · exact ⟨_, .inr (.inl h1)⟩
    · exact ih _ (by assumption) g h2
    · exact ⟨_, .inr (.inr h1)⟩
    · exact ih _ (by assumption) g h2

/-- One step of the subtitle loop on an object track, with the updated
accumulators written as constructor literals. -/
theorem subsLoop_cons_obj (tf : List (String × Json)) (rest : List Json) (acc : SubMaps) :
    subsLoop (Json.obj tf :: rest) acc =
      if truthy ((objGet tf "language").getD .null)
          && truthy ((objGet tf "url").getD .null) then
        if truthy ((objGet tf "autoGenerated").getD .null) then
          subsLoop rest
            ⟨acc.subtitles,
             sdAppend acc.automatic_captions ((objGet tf "language").getD .null)
               (subEntry ((objGet tf "url").getD .null))⟩
        else
          subsLoop rest
            ⟨sdAppend acc.subtitles ((objGet tf "language").getD .null)
               (subEntry ((objGet tf "url").getD .null)),
             acc.automatic_captions⟩
      else subsLoop rest acc := rfl

/-- Invariant of the subtitle track loop: the map entries grow exactly by
the kept tracks of the processed list, partitioned by `autoGenerated` and
keyed by language, in order. -/
theorem subsLoop_spec :
    ∀ (ts : List Json) (acc : SubMaps), (∀ t ∈ ts, isObjJ t = true) →
      ∃ sm, subsLoop ts acc = .ok sm ∧ ∀ l,
        lookupD sm.subtitles l = lookupD acc.subtitles l ++ specTrackUrls ts false l ∧
        lookupD sm.automatic_captions l =
          lookupD acc.automatic_captions l ++ specTrackUrls ts true l := by
  intro ts
  induction ts with
  | nil =>
    intro acc _
    exact ⟨acc, rfl, fun l => by simp [specTrackUrls]⟩
  | cons t rest ih =>
    intro acc h
    have ht : isObjJ t = true := h t (List.mem_cons_self ..)
    have hrest : ∀ t' ∈ rest, isObjJ t' = true := fun t' h' => h t' (List.mem_cons_of_mem _ h')
    cases t with
    | obj tf =>
      by_cases hk : (truthy ((objGet tf "language").getD .null)
          && truthy ((objGet tf "url").getD .null)) = true
      · by_cases ha : truthy ((objGet tf "autoGenerated").getD .null) = true
        · obtain ⟨sm, hsm, hspec⟩ := ih
            ⟨acc.subtitles,
             sdAppend acc.automatic_captions ((objGet tf "language").getD .null)
               (subEntry ((objGet tf "url").getD .null))⟩ hrest
          refine ⟨sm, by rw [subsLoop_cons_obj, if_pos hk, if_pos ha]; exact hsm, fun l => ?_⟩
          obtain ⟨hs1, hs2⟩ := hspec l
          constructor
          · simp only [specTrackUrls, List.filter_cons, trackKept, trackAuto, ha] at hs1 ⊢
            simpa using hs1
          · by_cases hl : ((objGet tf "language").getD Json.null) = l
            · rw [hl] at hk hs2
              simp only [hs2, lookupD_sdAppend, if_pos rfl, specTrackUrls,
                List.filter_cons, trackKept, trackAuto, trackLang, trackUrl, hk, ha, hl]
              simp [hk, List.append_assoc]
            · simp only [hs2, lookupD_sdAppend, if_neg (Ne.symm hl), specTrackUrls,
                List.filter_cons, trackKept, trackAuto, trackLang, trackUrl, hk, ha, hl]
              simp [hl]
        · obtain ⟨sm, hsm, hspec⟩ := ih
            ⟨sdAppend acc.subtitles ((objGet tf "language").getD .null)
               (subEntry ((objGet tf "url").getD .null)),
             acc.automatic_captions⟩ hrest
          refine ⟨sm, by rw [subsLoop_cons_obj, if_pos hk, if_neg ha]; exact hsm, fun l => ?_⟩
          obtain ⟨hs1, hs2⟩ := hspec l
          constructor
          · by_cases hl : ((objGet tf "language").getD Json.null) = l
            · rw [hl] at hk hs1
              simp only [hs1, lookupD_sdAppend, if_pos rfl, specTrackUrls,
                List.filter_cons, trackKept, trackAuto, trackLang, trackUrl, hk, ha, hl]
              simp [hk, List.append_assoc]
            · simp only [hs1, lookupD_sdAppend, if_neg (Ne.symm hl), specTrackUrls,
                List.filter_cons, trackKept, trackAuto, trackLang, trackUrl, hk, ha, hl]
              simp [hl]
          · simp only [specTrackUrls, List.filter_cons, trackKept, trackAuto, ha] at hs2 ⊢
            simpa using hs2
      · obtain ⟨sm, hsm, hspec⟩ := ih acc hrest
        refine ⟨sm, by rw [subsLoop_cons_obj, if_neg hk]; exact hsm, fun l => ?_⟩
        obtain ⟨hs1, hs2⟩ := hspec l
        constructor
        · simp only [specTrackUrls, List.filter_cons, trackKept, hk] at hs1 ⊢
          simpa using hs1
        · simp only [specTrackUrls, List.filter_cons, trackKept, hk] at hs2 ⊢
          simpa using hs2
    | null => exact absurd ht (by simp [isObjJ])
    | bool b => exact absurd ht (by simp [isObjJ])
    | num n => exact absurd ht (by simp [isObjJ])
    | str ss => exact absurd ht (by simp [isObjJ])
    | arr a => exact absurd ht (by simp [isObjJ])

/-- Successful thumbnail step of an `envThumb` extraction determines a
successful extraction with exactly those thumbnails. -/
theorem envThumb_ok (u : String) (res : List Thumb)
    (hb : buildThumbs (thumbVd u) thumbLabels = .ok res) :
    (realExtract (envThumb u) theUrl).2 = .ok (thumbRecAux res) := by
  show (realExtractBody (envThumb u) none theId (thumbVd u)).2 = .ok (thumbRecAux res)
  unfold realExtractBody
  rw [hb]
  rfl

/-- A failing thumbnail step of an `envThumb` extraction aborts the whole
extraction with that error. -/
theorem envThumb_err (u : String) (e : PyErr)
    (hb : buildThumbs (thumbVd u) thumbLabels = .error e) :
    (realExtract (envThumb u) theUrl).2 = .error e := by
  show (realExtractBody (envThumb u) none theId (thumbVd u)).2 = .error e
  unfold realExtractBody
  rw [hb]

/-- The thumbnail loop of an `envThumb` extraction reduces to the single
`small` entry. -/
theorem buildThumbs_thumbVd (u : String) (hu : ¬u = "") :
    buildThumbs (thumbVd u) thumbLabels =
      match mkThumb "small" u with
      | .error e => .error e
      | .ok t => .ok [t] := by
  have st1 : buildThumbs (thumbVd u) thumbLabels =
      (if u = "" then buildThumbs (thumbVd u) ["medium", "large"]
       else
         match mkThumb "small" u with
         | .error e => .error e
         | .ok t =>
           match buildThumbs (thumbVd u) ["medium", "large"] with
           | .error e => .error e
           | .ok ts => .ok (t :: ts)) := rfl
  have st2 : buildThumbs (thumbVd u) ["medium", "large"] = .ok [] := rfl
  rw [st1, if_neg hu, st2]

/-!  The claims.  -/

/-- C1: For every extraction in which the text-track API call fails (the
subtitle JSON download returns no result), the extraction does not abort:
the failed download behaves exactly like a download of a response with no
tracks, the subtitle step yields empty maps rather than an error, and a
completed extraction carries `subtitles = {}` and `automatic_captions = {}`
(spec-modelled: the spec fixes the failed `fatal=False` download, whose
code is not under `src/`, as non-fatal). -/
theorem c1_texttrack_failure_nonfatal (env : Env) (url : String)
    (htt : env.textTracks = none) :
    realExtract env url = realExtract { env with textTracks := some (Json.obj []) } url
    ∧ getAllSubtitles env.textTracks = .ok ⟨[], []⟩
    ∧ ∀ r, subsRequested env = true → (realExtract env url).2 = .ok r →
        r.subs = some ⟨[], []⟩ := by
  refine ⟨?_, by rw [htt]; exact getAllSubtitles_none, ?_⟩
  · unfold realExtract
    rw [htt]
    rfl
  · intro r hreq hok
    obtain ⟨vid, vd, thumbs, playlists, raw, title, hm, hmark, hvd, hbt, hpb, hcf, hnm, hcase⟩ :=
      core_ok_shape env _ url r hok
    rcases hcase with ⟨hs, hr⟩ | ⟨sm, hs, hr⟩
    · rw [hreq, htt] at hs
      simp [extractAllSubtitles] at hs
    · rw [hreq, htt] at hs
      simp only [extractAllSubtitles, if_pos rfl, getAllSubtitles_none] at hs
      injection hs with hs
      injection hs with hs
      subst hr
      simp [mkRecord, ← hs]

/-- C1 witness: a concrete extraction with subtitles requested and a failed
text-track download completes with empty subtitle maps. -/
theorem c1_witness : (baseRec (some ⟨[], []⟩)).subs = some (⟨[], []⟩ : SubMaps) :=
  (c1_texttrack_failure_nonfatal envC1 theUrl rfl).2.2 (baseRec (some ⟨[], []⟩)) rfl (by decide)

/-- C3 counterexample: with a video-metadata record that has no fields at
all, the extraction does not return a record: it aborts with the `KeyError`
of the mandatory `video_data['playbackUrls']` subscript (line 89), so the
absence of a field is not always non-fatal. -/
theorem c3_counterexample :
    realExtract envNoFields theUrl =
      ([.webpage, .videoMeta], .error (.keyError "playbackUrls")) := by decide

/-- C3 amended: the absence of optional fields (`id`, `language`,
`description`, `creator`, `posterImage`, `created`, `media`, `metrics`) is
non-fatal and yields absent/null outputs, but `name` and `playbackUrls` are
required: an extraction whose metadata has only those two fields succeeds
with every optional output absent or null. -/
theorem c3_amended_optional_fields (env : Env) (t : Json) (tok gw : String)
    (hmark : containsMarker env.webpage = true)
    (hat : env.accessToken = some tok)
    (hgw : env.apiGatewayUri = some gw)
    (hvd : env.videoData = some (.obj [("name", t), ("playbackUrls", Json.arr [])]))
    (hws : env.writesubtitles = false) (hwa : env.writeautomaticsub = false)
    (hlst : env.listsubtitles = false) :
    (realExtract env theUrl).2 = .ok
      { id := .str theId, title := t, description := .null, uploader := none,
        uploader_id := none, thumbnails := [], subs := none,
        timestamp := env.parseIso8601 .null,
        duration := env.parseDuration none,
        webpage_url := "https://web.microsoftstream.com/video/6e51d928-4f46-4f1c-b141-369925e37b62",
        view_count := none, like_count := none, comment_count := none,
        formats := env.sortFormats [] } := by
  unfold realExtract realExtractCore realExtractBody extractAllSubtitles subsRequested
  rw [hmark, hat, hgw, hvd, hws, hwa, hlst]
  rfl

/-- C3 witness: the amended claim at a concrete environment. -/
theorem c3_witness : (realExtract baseEnv theUrl).2 = .ok (baseRec none) :=
  c3_amended_optional_fields baseEnv (.str "T") "token123" "https://api.example.invalid"
    (by decide) rfl rfl rfl rfl rfl rfl

/-- C4 counterexample: an API response that supplies `id` as the empty
string (a falsy value): the output `id` is the URL-derived identifier, not
the supplied API value, because line 71 uses Python `or`, which takes the
fallback for every falsy `id`. -/
theorem c4_counterexample :
    (realExtract envEmptyId theUrl).2 = .ok (baseRec none)
    ∧ (baseRec none).id = .str theId
    ∧ Json.str theId ≠ Json.str "" := by decide

/-- C4 amended: the output `id` is the API `id` when that value is truthy,
and the URL-derived identifier when the API `id` is absent or falsy (such
as the empty string). -/
theorem c4_amended_id_reconciliation (env : Env) (url vid : String)
    (vd : List (String × Json)) (r : NormalizedRecord)
    (hm : matchId url = some vid)
    (hvd : env.videoData = some (.obj vd))
    (hok : (realExtract env url).2 = .ok r) :
    r.id = if truthy ((objGet vd "id").getD .null) then (objGet vd "id").getD .null
      else .str vid := by
  obtain ⟨vid', vd', thumbs, playlists, raw, title, hm', hmark, hvd', hbt, hpb, hcf, hnm, hcase⟩ :=
    core_ok_shape env _ url r hok
  rw [hm] at hm'
  injection hm' with hm'
  rw [hvd] at hvd'
  injection hvd' with hvd'
  injection hvd' with hvd'
  subst hm' hvd'
  rcases hcase with ⟨_, hr⟩ | ⟨sm, _, hr⟩ <;> (subst hr; simp [mkRecord])

/-- C4 witness: the amended claim at a concrete environment whose API
supplies a truthy id. -/
theorem c4_witness : recC4w.id = Json.str "abc-id-from-api" :=
  (c4_amended_id_reconciliation envC4w theUrl theId
      [("id", Json.str "abc-id-from-api"), ("name", Json.str "T"),
        ("playbackUrls", Json.arr [])] recC4w
      (by decide) rfl (by decide)).trans (by decide)

/-- C7: for every fetched page whose markup does not contain the literal
`<title>Microsoft Stream</title>`, the extraction fails with the
login-required error (raised with cookie-based instructions, line 58),
regardless of any other page content, and the only call issued is the page
fetch itself — no API call follows. -/
theorem c7_login_required (env : Env) (url vid : String)
    (hm : matchId url = some vid)
    (hmark : containsMarker env.webpage = false) :
    realExtract env url = ([ApiCall.webpage], .error .loginRequired) := by
  unfold realExtract realExtractCore
  rw [hm, hmark]
  rfl

/-- C7 witness: a concrete unauthenticated page. -/
theorem c7_witness : realExtract envC7 theUrl = ([ApiCall.webpage], .error .loginRequired) :=
  c7_login_required envC7 theUrl theId (by decide) (by decide)

/-- C10: when none of the three subtitle options is set, the subtitle step
contributes nothing at all — `extract_all_subtitles` returns the empty dict
(modelled `none`, i.e. the spread contributes no `subtitles` or
`automatic_captions` key), and a completed extraction's record has no
subtitle part. -/
theorem c10_no_subtitle_keys (env : Env) (url : String)
    (hreq : subsRequested env = false) :
    extractAllSubtitles (subsRequested env) env.textTracks = none
    ∧ ∀ r, (realExtract env url).2 = .ok r → r.subs = none := by
  constructor
  · rw [hreq]
    rfl
  · intro r hok
    obtain ⟨vid, vd, thumbs, playlists, raw, title, hm, hmark, hvd, hbt, hpb, hcf, hnm, hcase⟩ :=
      core_ok_shape env _ url r hok
    rcases hcase with ⟨_, hr⟩ | ⟨sm, hs, hr⟩
    · subst hr; simp [mkRecord]
    · rw [hreq] at hs
      simp [extractAllSubtitles] at hs

/-- C10 witness: the gate and the record shape at a concrete environment
with no subtitle options set. -/
theorem c10_witness :
    extractAllSubtitles (subsRequested baseEnv) baseEnv.textTracks = none
    ∧ (baseRec none).subs = none :=
  ⟨(c10_no_subtitle_keys baseEnv theUrl rfl).1,
   (c10_no_subtitle_keys baseEnv theUrl rfl).2 (baseRec none) (by decide)⟩

/-- C2 counterexample: a thumbnail URL whose final path segment (`ab.c`)
is not base64-decodable.  The extraction does not keep an id/url-only
entry — it aborts with the uncaught decode error, because line 84 calls
`b64decode` with no exception handling. -/
theorem c2_counterexample :
    b64decode (padB64 (url_basename uBad)) = none
    ∧ (realExtract (envThumb uBad) theUrl).2 = .error .b64DecodeError := by decide

/-- C2 amended: a present thumbnail URL whose decodable final path segment
stringifies to text containing a `WIDTHxHEIGHT` resolution yields that
width/height; a decodable segment without a resolution yields an entry
with only id and url; a non-decodable segment raises and aborts the whole
extraction instead of degrading. -/
theorem c2_amended_thumbnail_resolution (u : String) (hu : ¬u = "") :
    (∀ bs w h, b64decode (padB64 (url_basename u)) = some bs →
        parse_resolution (strOfBytes bs) = some (w, h) →
        (realExtract (envThumb u) theUrl).2 =
          .ok (thumbRecAux [⟨"small", u, some w, some h⟩]))
    ∧ (∀ bs, b64decode (padB64 (url_basename u)) = some bs →
        parse_resolution (strOfBytes bs) = none →
        (realExtract (envThumb u) theUrl).2 =
          .ok (thumbRecAux [⟨"small", u, none, none⟩]))
    ∧ (b64decode (padB64 (url_basename u)) = none →
        (realExtract (envThumb u) theUrl).2 = .error .b64DecodeError) := by
  refine ⟨?_, ?_, ?_⟩
  · intro bs w h hb64 hpr
    have hmk : mkThumb "small" u = .ok ⟨"small", u, some w, some h⟩ := by
      unfold mkThumb
      simp only [hb64, hpr]
    exact envThumb_ok u _ (by rw [buildThumbs_thumbVd u hu, hmk])
  · intro bs hb64 hpr
    have hmk : mkThumb "small" u = .ok ⟨"small", u, none, none⟩ := by
      unfold mkThumb
      simp only [hb64, hpr]
    exact envThumb_ok u _ (by rw [buildThumbs_thumbVd u hu, hmk])
  · intro hb64
    have hmk : mkThumb "small" u = .error .b64DecodeError := by
      unfold mkThumb
      simp only [hb64]
    exact envThumb_err u _ (by rw [buildThumbs_thumbVd u hu, hmk])

/-- C2 witness: the segment `MTI4MHg3MjAuanBn` decodes to `1280x720.jpg`,
and the extraction records width 1280 and height 720. -/
theorem c2_witness :
    (realExtract (envThumb uGood) theUrl).2 =
      .ok (thumbRecAux [⟨"small", uGood, some 1280, some 720⟩]) :=
  (c2_amended_thumbnail_resolution uGood (by decide)).1
    [49, 50, 56, 48, 120, 55, 50, 48, 46, 106, 112, 103] 1280 720 (by decide) (by decide)

/-- C5: tracks lacking a truthy language or URL are dropped; the remaining
tracks are partitioned by the `autoGenerated` flag (truthy into
`automatic_captions`, false or absent into `subtitles`), keyed by language,
multiple tracks per language kept in order as `{ext: "vtt", url}` entries;
and on the spec's three-track example the maps are exactly
`subtitles = {en: [u1], fr: [u3]}`, `automatic_captions = {en: [u2]}`. -/
theorem c5_subtitle_partition :
    (∀ ts : List Json, (∀ t ∈ ts, isObjJ t = true) →
      ∃ sm, getAllSubtitles (some (.obj [("value", Json.arr ts)])) = .ok sm ∧
        ∀ l, lookupD sm.subtitles l = specTrackUrls ts false l ∧
          lookupD sm.automatic_captions l = specTrackUrls ts true l)
    ∧ getAllSubtitles (some exTracks) = .ok exSubMaps := by
  constructor
  · intro ts h
    obtain ⟨sm, hsm, hspec⟩ := subsLoop_spec ts ⟨[], []⟩ h
    refine ⟨sm, hsm, fun l => ?_⟩
    obtain ⟨hs1, hs2⟩ := hspec l
    constructor
    · simpa [lookupD] using hs1
    · simpa [lookupD] using hs2
  · decide

/-- C5 witness: the general characterization applied to the example list
gives the example's English subtitle entries. -/
theorem c5_witness :
    lookupD exSubMaps.subtitles (Json.str "en") =
      specTrackUrls exList false (Json.str "en") := by
  obtain ⟨sm, hsm, hspec⟩ := c5_subtitle_partition.1 exList (by decide)
  have hsm' : sm = exSubMaps := by
    have h2 : getAllSubtitles (some (.obj [("value", Json.arr exList)])) = .ok exSubMaps := by
      decide
    rw [h2] at hsm
    injection hsm with hsm
    exact hsm.symm
  subst hsm'
  exact (hspec (Json.str "en")).1

/-- C6: playback entries whose `mimeType` is none of HLS, DASH or
smooth-streaming contribute no formats and raise no error — the loop's
result on such an entry is the result on the remaining entries; in
particular a list of one unsupported entry and one DASH entry yields
exactly the DASH resolver's formats for the DASH manifest URL. -/
theorem c6_unknown_mime_skipped :
    (∀ (hl dh im : Json → List Json) (e mt : Json) (rest : List Json),
        pySubscript e "mimeType" = .ok mt →
        mt ≠ mimeHls → mt ≠ mimeDash → mt ≠ mimeIsm →
        collectFormats hl dh im (e :: rest) = collectFormats hl dh im rest)
    ∧ ∀ (hl dh im : Json → List Json),
        collectFormats hl dh im [unsupEntry, dashEntry] = .ok (dh dashUrl) := by
  constructor
  · intro hl dh im e mt rest hmt h1 h2 h3
    simp only [collectFormats, hmt, if_neg h1, if_neg h2, if_neg h3]
  · intro hl dh im
    have h : collectFormats hl dh im [unsupEntry, dashEntry] = .ok (dh dashUrl ++ []) := rfl
    rw [h, List.append_nil]

/-- C6 witness: the two parts at concrete resolvers. -/
theorem c6_witness :
    collectFormats (fun _ => []) (fun _ => [Json.str "F"]) (fun _ => []) [unsupEntry] =
      collectFormats (fun _ => []) (fun _ => [Json.str "F"]) (fun _ => []) []
    ∧ collectFormats (fun _ => []) (fun _ => [Json.str "F"]) (fun _ => [])
        [unsupEntry, dashEntry] = .ok [Json.str "F"] :=
  ⟨c6_unknown_mime_skipped.1 _ _ _ unsupEntry (.str "application/x-new-format") []
      (by decide) (by decide) (by decide) (by decide),
   c6_unknown_mime_skipped.2 (fun _ => []) (fun _ => [Json.str "F"]) (fun _ => [])⟩

/-- C8: the text-track fetch is gated exactly on the three caller options:
the gate's result is `some` exactly when `writesubtitles ∨
writeautomaticsub ∨ listsubtitles`; when none is set the call trace never
contains the text-track call; and in every completed extraction the trace
contains the text-track call exactly when one of the options is set. -/
theorem c8_texttrack_fetch_iff_requested (env : Env) (url : String) :
    ((extractAllSubtitles (subsRequested env) env.textTracks).isSome
      = (env.writesubtitles || env.writeautomaticsub || env.listsubtitles))
    ∧ (subsRequested env = false → ApiCall.texttracks ∉ (realExtract env url).1)
    ∧ ∀ r, (realExtract env url).2 = .ok r →
        (ApiCall.texttracks ∈ (realExtract env url).1 ↔ subsRequested env = true) := by
  refine ⟨extractAllSubtitles_isSome _ _, ?_, ?_⟩
  · intro hreq
    have hs : extractAllSubtitles (subsRequested env) env.textTracks = none := by
      rw [hreq]
      rfl
    unfold realExtract
    rw [hs]
    rcases core_calls env none url with h | h | h | ⟨h, hsome⟩
    · rw [h]; decide
    · rw [h]; decide
    · rw [h]; decide
    · simp at hsome
  · intro r hok
    unfold realExtract at hok ⊢
    rw [core_ok_calls env _ url r hok]
    cases hb : subsRequested env <;> simp [extractAllSubtitles_isSome]

/-- C8 witness: with `listsubtitles` set the trace of a completed concrete
extraction contains the text-track call; with no option set it does not. -/
theorem c8_witness :
    (ApiCall.texttracks ∈ (realExtract envC8 theUrl).1)
    ∧ ApiCall.texttracks ∉ (realExtract baseEnv theUrl).1 :=
  ⟨((c8_texttrack_fetch_iff_requested envC8 theUrl).2.2 (baseRec (some ⟨[], []⟩))
      (by decide)).mpr (by decide),
   (c8_texttrack_fetch_iff_requested baseEnv theUrl).2.1 rfl⟩

/-- C9: every entry of a completed extraction's `formats` list carries the
video's top-level `language` value, even when the delegated resolver did
not set one (spec-modelled: `merge_dicts` is excluded by the spec as an
external collaborator and specified as injecting the video's language tag;
`_sort_formats` is delegated, assumed here only to return elements of its
input). -/
theorem c9_formats_carry_language (env : Env) (url : String)
    (vd : List (String × Json)) (r : NormalizedRecord)
    (hsort : ∀ l f, f ∈ env.sortFormats l → f ∈ l)
    (hhl : ∀ u f, f ∈ env.hls u → isObjJ f = true)
    (hdh : ∀ u f, f ∈ env.dash u → isObjJ f = true)
    (him : ∀ u f, f ∈ env.ism u → isObjJ f = true)
    (hvd : env.videoData = some (.obj vd))
    (hok : (realExtract env url).2 = .ok r) :
    ∀ f ∈ r.formats, formatLanguage f = some ((objGet vd "language").getD .null) := by
  obtain ⟨vid, vd', thumbs, playlists, raw, title, hm, hmark, hvd', hbt, hpb, hcf, hnm, hcase⟩ :=
    core_ok_shape env _ url r hok
  rw [hvd] at hvd'
  injection hvd' with hvd'
  injection hvd' with hvd'
  subst hvd'
  have hmain : ∀ f ∈ (mkRecord env vid vd thumbs title raw none).formats,
      formatLanguage f = some ((objGet vd "language").getD .null) := by
    intro f hf
    have hf1 : f ∈ raw.map (tagLanguage ((objGet vd "language").getD .null)) :=
      hsort _ f (by simpa [mkRecord] using hf)
    obtain ⟨g, hg, rfl⟩ := List.mem_map.mp hf1
    obtain ⟨u, hu⟩ := collectFormats_mem env.hls env.dash env.ism playlists raw hcf g hg
    have hobj : isObjJ g = true := by
      rcases hu with h | h | h
      exacts [hhl u g h, hdh u g h, him u g h]
    cases g with
    | obj gf => simp [tagLanguage, formatLanguage, objGet_dictSet]
    | null => simp [isObjJ] at hobj
    | bool b => simp [isObjJ] at hobj
    | num n => simp [isObjJ] at hobj
    | str s => simp [isObjJ] at hobj
    | arr a => simp [isObjJ] at hobj
  rcases hcase with ⟨_, hr⟩ | ⟨sm, _, hr⟩ <;> subst hr
  · exact hmain
  · intro f hf
    exact hmain f (by simpa [mkRecord] using hf)

/-- C9 witness: the concrete DASH extraction yields the resolver's entry
tagged with the video's language `en`. -/
theorem c9_witness : formatLanguage fmtC9 = some (Json.str "en") :=
  c9_formats_carry_language envC9 theUrl vdC9 recC9
    (fun _ _ h => h)
    (fun _ f h => absurd h (List.not_mem_nil f))
    (fun _ f h => by rw [List.eq_of_mem_singleton h]; rfl)
    (fun _ f h => absurd h (List.not_mem_nil f))
    rfl (by decide) fmtC9 (by decide)

end MicrosoftStream
